import Mathlib

/-!
Shallow embedding of brrtfetch (src/go/main.go): the frame compositor
(GIF disposal methods), the glyph mapper, the frame renderer, the overlay
command wrapper, the playback delay, the buffer pool and the
result-collection phase, together with theorems settling the spec claims.

The Go source computes luminance and scaling in float64; those parts are
modelled in exact rational arithmetic (ℚ), the magnitudes involved being
far from any float boundary the program cares about.  Machine integers
(uint8/uint32) are modelled as ℕ with explicit % 256 where Go truncates.
-/

namespace Brrtfetch

/-- An 8-bit RGBA pixel, as stored in Go's `image.RGBA` `Pix` slice
(alpha-premultiplied, four bytes per pixel). -/
structure RGBA where
  r : ℕ
  g : ℕ
  b : ℕ
  a : ℕ
deriving DecidableEq, Repr

/-- `color.Transparent` / the zero value of a freshly allocated RGBA buffer. -/
def transparent : RGBA := ⟨0, 0, 0, 0⟩

instance : Inhabited RGBA := ⟨transparent⟩

/-! ## Glyph mapper (`pixelToASCII`, main.go:276-296) -/

/-- `pixelToASCII` (main.go:276): luminance = 0.2126·R + 0.7152·G + 0.0722·B,
then an 8-way switch on thresholds scaled by the multiplier.  Go computes in
float64; modelled over ℚ. -/
def pixelToASCII (r g b : ℕ) (multiplier : ℚ) : String :=
  let lum : ℚ := 0.2126 * r + 0.7152 * g + 0.0722 * b
  if lum > 1000 * multiplier then " "       -- Needs retuning (source comment)
  else if lum > 250 * multiplier then "."
  else if lum > 180 * multiplier then "◌"
  else if lum > 140 * multiplier then "*"
  else if lum > 120 * multiplier then "●"
  else if lum > 60 * multiplier then "⦾"
  else if lum > 30 * multiplier then "⦿"
  else "⬤"

/-- The fixed glyph ramp of `pixelToASCII`, read off the 8-case switch:
seven guarded thresholds plus the unguarded darkest entry (`none`).
Listed in scan order (lightest first), so its reverse runs darkest to
lightest. -/
def glyphRamp : List (Option ℚ × String) :=
  [(some 1000, " "), (some 250, "."), (some 180, "◌"), (some 140, "*"),
   (some 120, "●"), (some 60, "⦾"), (some 30, "⦿"), (none, "⬤")]

/-- Select the first ramp entry whose scaled threshold the luminance
exceeds; an unguarded entry always matches. -/
def selectGlyph (lum m : ℚ) : List (Option ℚ × String) → String
  | [] => ""
  | (none, g) :: _ => g
  | (some t, g) :: rest => if lum > t * m then g else selectGlyph lum m rest

/-- The numeric thresholds of a ramp, in list order. -/
def rampThresholds (ramp : List (Option ℚ × String)) : List ℚ :=
  ramp.filterMap Prod.fst

/-! ## Frame renderer (`renderFrame`, main.go:221-273) -/

/-- The pooled canvas handed to `renderFrame`: an `image.RGBA` of the GIF's
logical screen size, addressed here by pixel coordinates (the `Pix`/`Stride`
access `pix[py*stride+px*4 ..]` of the source is exactly pixel `(px, py)`). -/
structure Img where
  w : ℕ
  h : ℕ
  pix : ℕ → ℕ → RGBA

/-- The string `renderFrame` appends for one sampled pixel
(main.go:246-255): alpha 0 gives a colour reset plus a space; otherwise the
glyph, wrapped in a 24-bit foreground escape when colour output is on. -/
def renderPixel (px : RGBA) (colorOutput : Bool) (multiplier : ℚ) : String :=
  if px.a = 0 then "\x1b[0m "
  else
    let char := pixelToASCII px.r px.g px.b multiplier
    if colorOutput then
      "\x1b[38;2;" ++ toString px.r ++ ";" ++ toString px.g ++ ";" ++
        toString px.b ++ "m" ++ char ++ "\x1b[0m"
    else char

/-- The image portion of output row `y` (main.go:240-256): for each column,
nearest-neighbour sample at `(int(x*scaleX), int(y*scaleY))`.  Go truncates
the float products `x * Dx/width` and `y * Dy/height`; in exact arithmetic
that is natural-number division. -/
def imageRow (img : Img) (width height : ℕ) (colorOutput : Bool)
    (multiplier : ℚ) (y : ℕ) : String :=
  String.join ((List.range width).map fun x =>
    renderPixel (img.pix (x * img.w / width) (y * img.h / height))
      colorOutput multiplier)

/-- `strings.Repeat(" ", width)` (main.go:259). -/
def blankRow (width : ℕ) : String := String.mk (List.replicate width ' ')

/-- One output line of `renderFrame` (main.go:235-269): the image part (or
blank padding for rows past the image height), then the three-space
separator and the overlay line when `y - offset` is in range. -/
def renderLine (img : Img) (width height : ℕ) (sysInfo : List String)
    (colorOutput : Bool) (multiplier : ℚ) (offset : ℤ) (y : ℕ) : String :=
  let imagePart :=
    if y < height then imageRow img width height colorOutput multiplier y
    else blankRow width
  let sysIndex : ℤ := (y : ℤ) - offset
  if 0 ≤ sysIndex ∧ sysIndex < sysInfo.length then
    imagePart ++ "   " ++ sysInfo.getD sysIndex.toNat ""
  else imagePart

/-- `totalHeight` (main.go:223-226): `height`, raised to
`len(sysInfo) + offset` when that exceeds it. -/
def totalHeight (height : ℕ) (sysLen : ℕ) (offset : ℤ) : ℕ :=
  if (height : ℤ) < (sysLen : ℤ) + offset then ((sysLen : ℤ) + offset).toNat
  else height

/-- `renderFrame` (main.go:221): the list of `totalHeight` output lines. -/
def renderFrame (img : Img) (width height : ℕ) (sysInfo : List String)
    (colorOutput : Bool) (multiplier : ℚ) (offset : ℤ) : List String :=
  (List.range (totalHeight height sysInfo.length offset)).map
    (renderLine img width height sysInfo colorOutput multiplier offset)

/-! ## Playback delay (main.go:193) -/

/-- `delay := time.Duration(1000/cfg.FPS) * time.Millisecond`: Go integer
division of 1000 by the fps flag, times 10^6 nanoseconds. -/
def delayNs (fps : ℕ) : ℕ := (1000 / fps) * 1000000

/-! ## Frame compositor (main.go:135-165)

Canvases are total functions on ℤ × ℤ; all the draw operations of the
source target the logical screen rectangle `(0,0)-(W,H)` with a zero
source offset, so every copy is coordinate-identical. -/

/-- An `image.Rectangle`; membership is Go's half-open `In`. -/
structure Rect where
  x0 : ℤ
  y0 : ℤ
  x1 : ℤ
  y1 : ℤ
deriving DecidableEq, Repr

/-- `p In r` for Go rectangles: min inclusive, max exclusive. -/
def Rect.Mem (r : Rect) (p : ℤ × ℤ) : Prop :=
  r.x0 ≤ p.1 ∧ p.1 < r.x1 ∧ r.y0 ≤ p.2 ∧ p.2 < r.y1

instance (r : Rect) (p : ℤ × ℤ) : Decidable (r.Mem p) :=
  inferInstanceAs (Decidable (_ ∧ _ ∧ _ ∧ _))

/-- The logical screen `image.Rect(0, 0, g.Config.Width, g.Config.Height)`. -/
def canvasRect (W H : ℤ) : Rect := ⟨0, 0, W, H⟩

/-- A full-size pixel buffer. -/
def Canvas : Type := ℤ × ℤ → RGBA

/-- A decoded GIF frame as the compositor consumes it: its bounding
rectangle, its pixels (Go reads them through `RGBA()` during `draw.Draw`;
the palette lookup is abstracted into the pixel function), and its disposal
byte `g.Disposal[i]`. -/
structure GFrame where
  bounds : Rect
  pix : ℤ × ℤ → RGBA
  disposal : ℕ

instance : Inhabited GFrame := ⟨⟨⟨0, 0, 0, 0⟩, fun _ => transparent, 0⟩⟩

/-- `gif.DisposalNone` (0x01). -/
def DisposalNone : ℕ := 1
/-- `gif.DisposalBackground` (0x02). -/
def DisposalBackground : ℕ := 2
/-- `gif.DisposalPrevious` (0x03). -/
def DisposalPrevious : ℕ := 3

/-- One channel of Go's `draw.Over` fast path for RGBA-on-RGBA
(`drawCopyOver`): with 16-bit source channel `s·257` and source alpha
`sa·257`, the stored byte is `uint8((d*(0xffff-sa16)*257/0xffff + s16) >> 8)`. -/
def overChannel (sc8 sa8 dc8 : ℕ) : ℕ :=
  ((dc8 * ((65535 - sa8 * 257) * 257)) / 65535 + sc8 * 257) / 256 % 256

/-- `draw.Over` on one premultiplied RGBA pixel. -/
def overPix (s d : RGBA) : RGBA :=
  ⟨overChannel s.r s.a d.r, overChannel s.g s.a d.g,
   overChannel s.b s.a d.b, overChannel s.a s.a d.a⟩

/-- The compositor's loop state (main.go:136-139): the composed canvas
`fullFrame`, the `snapshot` canvas, and the previous frame's disposal byte
and bounds.  `lastDisposal` starts at `gif.DisposalNone` (main.go:137), and
both canvases start zeroed (fresh `image.NewRGBA` plus the explicit
transparent fill of main.go:144-145). -/
structure CompState where
  fullFrame : Canvas
  snapshot : Canvas
  lastDisposal : ℕ
  lastBounds : Rect

/-- State entering the first loop iteration. -/
def initState : CompState :=
  { fullFrame := fun _ => transparent
    snapshot := fun _ => transparent
    lastDisposal := DisposalNone
    lastBounds := ⟨0, 0, 0, 0⟩ }

/-- Disposal of the previous frame (main.go:147-151): `DisposalPrevious`
copies the snapshot back over the whole canvas (`draw.Src` on
`fullFrame.Bounds()`); any other non-`DisposalNone` byte fills
`lastBounds` (clipped to the canvas) with transparent; `DisposalNone`
leaves the canvas alone. -/
def applyDisposal (cb : Rect) (st : CompState) : Canvas :=
  if st.lastDisposal = DisposalPrevious then
    fun p => if cb.Mem p then st.snapshot p else st.fullFrame p
  else if st.lastDisposal ≠ DisposalNone then
    fun p => if cb.Mem p ∧ st.lastBounds.Mem p then transparent
             else st.fullFrame p
  else st.fullFrame

/-- `draw.Draw(fullFrame, frame.Bounds(), frame, frame.Bounds().Min,
draw.Over)` (main.go:158): alpha-over inside the frame's bounds clipped to
the canvas, untouched elsewhere. -/
def drawFrame (cb : Rect) (c : Canvas) (f : GFrame) : Canvas :=
  fun p => if cb.Mem p ∧ f.bounds.Mem p then overPix (f.pix p) (c p)
           else c p

/-- One iteration of the compositing loop (main.go:141-165) on frame `f`:
apply the previous frame's disposal, snapshot if `f` itself is
`DisposalPrevious` (`copy(snapshot.Pix, fullFrame.Pix)`, main.go:154-156),
draw `f` over, and record `f`'s disposal and bounds.  Returns the canvas as
it stood immediately before `f` was drawn, with the new state. -/
def compStep (cb : Rect) (st : CompState) (f : GFrame) : Canvas × CompState :=
  let pre := applyDisposal cb st
  let snap :=
    if f.disposal = DisposalPrevious then
      fun p => if cb.Mem p then pre p else st.snapshot p
    else st.snapshot
  (pre,
   { fullFrame := drawFrame cb pre f
     snapshot := snap
     lastDisposal := f.disposal
     lastBounds := f.bounds })

/-- The compositor state after the first `i` frames have been processed. -/
def stateAt (cb : Rect) (frames : List GFrame) : ℕ → CompState
  | 0 => initState
  | i + 1 => (compStep cb (stateAt cb frames i) (frames.getD i default)).2

/-- The canvas immediately before frame `i` is drawn (after frame `i-1`'s
disposal has been applied). -/
def preCanvas (cb : Rect) (frames : List GFrame) (i : ℕ) : Canvas :=
  (compStep cb (stateAt cb frames i) (frames.getD i default)).1

/-- The composed canvas for frame `i` — the pixels copied into the pooled
buffer and dispatched as `RenderJob` `i` (main.go:162-164). -/
def postCanvas (cb : Rect) (frames : List GFrame) (i : ℕ) : Canvas :=
  (stateAt cb frames (i + 1)).fullFrame

/-! ## Overlay command (`runCommand` / `getCommandOutputLines`,
main.go:299-351)

The operating-system effects are parameters: which wrapper binaries
`exec.LookPath` finds, and what `cmd.CombinedOutput()` returns (output
text, and whether it returned an error — command not found or non-zero
exit). -/

/-- Split a character list at every occurrence of `sep`; like Go's
`strings.Split` with a one-character separator, it yields one piece more
than there are separators. -/
def splitOnChar (sep : Char) : List Char → List (List Char)
  | [] => [[]]
  | c :: cs =>
    if c = sep then [] :: splitOnChar sep cs
    else
      match splitOnChar sep cs with
      | [] => [[c]]
      | l :: ls => (c :: l) :: ls

/-- `strings.Fields`: whitespace-separated words (modelled on the space
character). -/
def fields (s : String) : List String :=
  (((splitOnChar ' ' s.data).filter (fun w => w ≠ [])).map fun l =>
    String.mk l)

/-- The environment `runCommand` probes. -/
structure CmdEnv where
  scriptAvailable : Bool
  unbufferAvailable : Bool
  isDarwin : Bool
  run : String → List String → String × Bool

/-- `runCommand` (main.go:299-336): try `script`, then `unbuffer`, then the
command directly; only the direct fallback inspects the error, producing
the `Error running command:` text. -/
def runCommand (env : CmdEnv) (commandLine : String) : String :=
  match fields commandLine with
  | [] => ""
  | name :: rest =>
    let flags := if env.isDarwin then ["-q -c"] else ["-qefc"]
    if env.scriptAvailable then
      (env.run "script"
        (flags ++ [commandLine ++ " 2>/dev/null", "/dev/null"])).1
    else if env.unbufferAvailable then
      (env.run "unbuffer" (name :: rest)).1
    else
      let res := env.run name rest
      if res.2 then "Error running command: " ++ name ++ "\n" ++ res.1
      else res.1

/-- `strings.Split(output, "\n")`. -/
def splitLines (l : List Char) : List (List Char) := splitOnChar '\n' l

/-- `strings.TrimRight(line, "\r\n")`. -/
def trimRightCRLF (l : List Char) : List Char :=
  (l.reverse.dropWhile fun c => c = '\r' || c = '\n').reverse

/-- Split into lines, trim trailing CR/LF, and keep the non-empty lines
(main.go:341-349). -/
def cleanLines (s : List Char) : List String :=
  ((((splitLines s).map trimRightCRLF).filter (fun l => l ≠ [])).map
    fun l => String.mk l)

/-- `getCommandOutputLines` (main.go:339-351). -/
def getCommandOutputLines (env : CmdEnv) (commandLine : String) : List String :=
  cleanLines (runCommand env commandLine).data

/-! ## Result collection and playback start (main.go:169-197, 210-218)

After dispatching every job, main waits on the worker `WaitGroup`, closes
`results`, and proceeds to playback; a separate goroutine drains `results`
into `prerendered`.  The model's steps: a worker sends result `i` (the
channel is buffered to `len(g.Image)`, so sends never block); the collector
goroutine moves the head of the channel into the array; main passes
`wg.Wait()` — possible exactly when every result has been sent — and
starts playback.  Nothing orders the collector's progress against
playback. -/

structure CollectState where
  unsent : List ℕ
  chan : List ℕ
  collected : List ℕ
  playback : Bool
deriving DecidableEq, Repr

inductive CollectStep (N : ℕ) : CollectState → CollectState → Prop
  | send (s : CollectState) (i : ℕ) (h : i ∈ s.unsent) :
      CollectStep N s ⟨s.unsent.erase i, s.chan ++ [i], s.collected, s.playback⟩
  | collect (s : CollectState) (i : ℕ) (rest : List ℕ) (h : s.chan = i :: rest) :
      CollectStep N s ⟨s.unsent, rest, s.collected ++ [i], s.playback⟩
  | beginPlayback (s : CollectState) (h1 : s.unsent = [])
      (h2 : s.playback = false) :
      CollectStep N s ⟨s.unsent, s.chan, s.collected, true⟩

/-- States reachable from program start (all `N` results pending, empty
channel, empty array, playback not begun). -/
inductive CollectReach (N : ℕ) : CollectState → Prop
  | init : CollectReach N ⟨List.range N, [], [], false⟩
  | step {s s' : CollectState} : CollectReach N s → CollectStep N s s' →
      CollectReach N s'

/-- A schedule of the 1-frame program in which main reaches playback while
the collector goroutine has not yet written `prerendered[0]`. -/
def racedState : CollectState := ⟨[], [0], [], true⟩

/-! ## Buffer pool (main.go:124-127, 162-164, 216) -/

structure PoolState where
  inPool : ℕ
  checkedOut : ℕ
deriving DecidableEq, Repr

inductive PoolOp
  | acquire
  | release
deriving DecidableEq, Repr

/-- Transitions of the `bufferPool` channel: a receive (`<-bufferPool`,
main.go:162) needs a canvas in the pool; a send (`bufferPool <- job.PoolKey`,
main.go:216) needs a checked-out canvas and channel space. -/
inductive PoolStep (cap : ℕ) : PoolState → PoolOp → PoolState → Prop
  | acquire (s : PoolState) (h : 0 < s.inPool) :
      PoolStep cap s PoolOp.acquire ⟨s.inPool - 1, s.checkedOut + 1⟩
  | release (s : PoolState) (h : 0 < s.checkedOut) (hc : s.inPool < cap) :
      PoolStep cap s PoolOp.release ⟨s.inPool + 1, s.checkedOut - 1⟩

/-- States reachable from the initialized pool (main.go:124-127: the
channel is filled to capacity with fresh canvases). -/
inductive PoolReach (cap : ℕ) : PoolState → Prop
  | init : PoolReach cap ⟨cap, 0⟩
  | step {s s' : PoolState} {op : PoolOp} : PoolReach cap s →
      PoolStep cap s op s' → PoolReach cap s'

/-- `make(chan *image.RGBA, numWorkers*2)` (main.go:124). -/
def poolCapacity (numWorkers : ℕ) : ℕ := numWorkers * 2

/-! ## Concrete fixtures used by witnesses -/

/-- A full-canvas opaque red frame tagged `DisposalPrevious`. -/
def wFrame0 : GFrame :=
  ⟨⟨0, 0, 2, 2⟩, fun _ => ⟨255, 0, 0, 255⟩, DisposalPrevious⟩

/-- A 1×1 opaque blue frame tagged `DisposalBackground`. -/
def wFrame1 : GFrame :=
  ⟨⟨0, 0, 1, 1⟩, fun _ => ⟨0, 0, 255, 255⟩, DisposalBackground⟩

/-- A two-frame animation on a 2×2 canvas. -/
def wFrames : List GFrame := [wFrame0, wFrame1]

/-- An environment with no `script`, no `unbuffer`, and a failing command. -/
def wEnv : CmdEnv := ⟨false, false, false, fun _ _ => ("boom", true)⟩

/-- A 1×1 transparent pooled canvas. -/
def wImg : Img := ⟨1, 1, fun _ _ => transparent⟩

/-! ## Theorems -/

/-- `pixelToASCII` is definitionally the scan of the 8-entry glyph ramp. -/
theorem pixelToASCII_eq_select (r g b : ℕ) (m : ℚ) :
    pixelToASCII r g b m =
      selectGlyph (0.2126 * r + 0.7152 * g + 0.0722 * b) m glyphRamp := rfl

/-- C4: the glyph mapper computes luminance 0.2126·R + 0.7152·G + 0.0722·B
and selects the glyph by scanning a fixed 8-entry ramp whose thresholds,
each scaled by the multiplier, run darkest to lightest (the darkest entry
is the filled circle, the lightest is the space), and equal inputs always
yield equal output. -/
theorem pixelToASCII_ramp (r g b : ℕ) (m : ℚ) :
    pixelToASCII r g b m =
      selectGlyph (0.2126 * r + 0.7152 * g + 0.0722 * b) m glyphRamp
    ∧ glyphRamp.length = 8
    ∧ List.Chain' (· < ·) (rampThresholds glyphRamp.reverse)
    ∧ (glyphRamp.reverse.map Prod.snd).headD "" = "⬤"
    ∧ (glyphRamp.map Prod.snd).headD "" = " "
    ∧ (∀ r' g' b' : ℕ, ∀ m' : ℚ, r = r' → g = g' → b = b' → m = m' →
        pixelToASCII r g b m = pixelToASCII r' g' b' m') := by
  refine ⟨pixelToASCII_eq_select r g b m, rfl,
    by norm_num [glyphRamp, rampThresholds, List.chain'_cons,
      List.filterMap_cons], rfl, rfl, ?_⟩
  rintro r' g' b' m' rfl rfl rfl rfl
  rfl

/-- Witness for C4 at a concrete pixel. -/
theorem pixelToASCII_ramp_witness :
    pixelToASCII 10 20 30 1 = pixelToASCII 10 20 30 1 :=
  (pixelToASCII_ramp 10 20 30 1).2.2.2.2.2 10 20 30 1 rfl rfl rfl rfl

/-- C7: a pixel with alpha 0 renders as the colour-reset escape followed by
a single space, whatever its RGB channels, the multiplier and the colour
toggle. -/
theorem alpha_zero_renders_reset_space (r g b : ℕ) (colorOutput : Bool)
    (m : ℚ) :
    renderPixel ⟨r, g, b, 0⟩ colorOutput m = "\x1b[0m" ++ " " := rfl

/-- C10: with all channels at most 255 and multiplier at least 0.255 (so in
particular at the default 1.2), luminance never exceeds the top threshold
1000·multiplier, so the space entry of the ramp is unreachable and the
mapper returns one of the seven non-space glyphs. -/
theorem space_glyph_unreachable (r g b : ℕ) (m : ℚ)
    (hr : r ≤ 255) (hg : g ≤ 255) (hb : b ≤ 255) (hm : 0.255 ≤ m) :
    pixelToASCII r g b m ≠ " "
    ∧ pixelToASCII r g b m ∈ [".", "◌", "*", "●", "⦾", "⦿", "⬤"] := by
  have hr' : (r : ℚ) ≤ 255 := by exact_mod_cast hr
  have hg' : (g : ℚ) ≤ 255 := by exact_mod_cast hg
  have hb' : (b : ℚ) ≤ 255 := by exact_mod_cast hb
  have h1 : ¬ ((0.2126 * r + 0.7152 * g + 0.0722 * b : ℚ) > 1000 * m) := by
    push_neg
    nlinarith [hr', hg', hb', hm]
  rw [pixelToASCII_eq_select, glyphRamp]
  simp only [selectGlyph]
  rw [if_neg h1]
  constructor
  · split_ifs <;> decide
  · split_ifs <;> decide

/-- Witness for C10 at the brightest pixel and the default multiplier. -/
theorem space_glyph_unreachable_witness :
    pixelToASCII 255 255 255 1.2 ≠ " "
    ∧ pixelToASCII 255 255 255 1.2 ∈ [".", "◌", "*", "●", "⦾", "⦿", "⬤"] :=
  space_glyph_unreachable 255 255 255 1.2 (by norm_num) (by norm_num)
    (by norm_num) (by norm_num)

/-- Counterexample to C6 as stated: at the default fps of 17 the delay is
58 ms, which is not 1000/17 ms. -/
theorem delay_cex : ((delayNs 17 : ℚ) / 1000000) ≠ 1000 / 17 := by
  norm_num [delayNs]

/-- C6 (amended): the per-frame delay is ⌊1000/fps⌋ milliseconds — Go
integer division — and equals 1000/fps milliseconds exactly when fps
divides 1000. -/
theorem delay_floor (fps : ℕ) (h : 0 < fps) :
    (delayNs fps : ℚ) / 1000000 = (⌊(1000 : ℚ) / (fps : ℚ)⌋₊ : ℚ)
    ∧ (fps ∣ 1000 → (delayNs fps : ℚ) / 1000000 = 1000 / (fps : ℚ)) := by
  have key : (delayNs fps : ℚ) / 1000000 = ((1000 / fps : ℕ) : ℚ) := by
    rw [delayNs, Nat.cast_mul]
    norm_num
  have hfloor : ⌊(1000 : ℚ) / (fps : ℚ)⌋₊ = 1000 / fps := by
    rw [Nat.floor_div_nat]
    norm_num
  constructor
  · rw [key, hfloor]
  · intro hd
    rw [key]
    exact Nat.cast_div hd (by exact_mod_cast h.ne')

/-- Witness for C6 (amended) at fps = 10. -/
theorem delay_floor_witness :
    (delayNs 10 : ℚ) / 1000000 = (⌊(1000 : ℚ) / ((10 : ℕ) : ℚ)⌋₊ : ℚ)
    ∧ ((10 : ℕ) ∣ 1000 → (delayNs 10 : ℚ) / 1000000 = 1000 / ((10 : ℕ) : ℚ)) :=
  delay_floor 10 (by norm_num)

/-- Canvases are conserved: in-pool plus checked-out always equals the
capacity the pool was filled to. -/
theorem pool_conservation {cap : ℕ} {s : PoolState}
    (h : PoolReach cap s) : s.inPool + s.checkedOut = cap := by
  induction h with
  | init => rfl
  | step _ hs ih =>
    cases hs with
    | acquire hp => simp only at ih ⊢; omega
    | release hp hc => simp only at ih ⊢; omega

/-- C9: in every reachable pool state the number of checked-out canvases
never exceeds the fixed capacity, twice the worker count; an acquire is
impossible while the pool is empty, and becomes possible again after any
release. -/
theorem bufferPool_bounded (numWorkers : ℕ) (s : PoolState)
    (h : PoolReach (poolCapacity numWorkers) s) :
    s.checkedOut ≤ poolCapacity numWorkers
    ∧ s.inPool + s.checkedOut = poolCapacity numWorkers
    ∧ (s.inPool = 0 →
        ∀ s', ¬ PoolStep (poolCapacity numWorkers) s PoolOp.acquire s')
    ∧ (∀ s', PoolStep (poolCapacity numWorkers) s PoolOp.release s' →
        ∃ s'', PoolStep (poolCapacity numWorkers) s' PoolOp.acquire s'') := by
  have hc := pool_conservation h
  refine ⟨by omega, hc, ?_, ?_⟩
  · intro h0 s' hstep
    cases hstep with
    | acquire hp => omega
  · intro s' hstep
    cases hstep with
    | release hp hcap => exact ⟨_, PoolStep.acquire _ (Nat.succ_pos _)⟩

/-- Witness for C9 at the freshly initialized pool of a single worker. -/
theorem bufferPool_bounded_witness :
    (PoolState.mk 2 0).checkedOut ≤ poolCapacity 1
    ∧ (PoolState.mk 2 0).inPool + (PoolState.mk 2 0).checkedOut =
        poolCapacity 1
    ∧ ((PoolState.mk 2 0).inPool = 0 →
        ∀ s', ¬ PoolStep (poolCapacity 1) (PoolState.mk 2 0) PoolOp.acquire s')
    ∧ (∀ s', PoolStep (poolCapacity 1) (PoolState.mk 2 0) PoolOp.release s' →
        ∃ s'', PoolStep (poolCapacity 1) s' PoolOp.acquire s'') :=
  bufferPool_bounded 1 ⟨2, 0⟩ PoolReach.init

/-- C2 fails on the code: in the 1-frame program there is a schedule in
which the worker sends its result, `wg.Wait()` and `close(results)` pass,
and main begins playback while the collector goroutine has not yet moved
the result out of the channel — `prerendered` still has a gap at index 0.
The code never waits for the collector to drain `results` before playback
(the `go func` of main.go:170-174 is not joined). -/
theorem playback_before_drain :
    CollectReach 1 racedState
    ∧ racedState.playback = true
    ∧ racedState.unsent = []
    ∧ racedState.collected = [] := by
  refine ⟨?_, rfl, rfl, rfl⟩
  have h0 : CollectReach 1 ⟨[0], [], [], false⟩ := by
    have h := CollectReach.init (N := 1)
    simpa using h
  have h1 : CollectStep 1 ⟨[0], [], [], false⟩ ⟨[], [0], [], false⟩ := by
    have h := CollectStep.send (N := 1) ⟨[0], [], [], false⟩ 0 (by simp)
    simpa using h
  have h2 : CollectStep 1 ⟨[], [0], [], false⟩ racedState :=
    CollectStep.beginPlayback ⟨[], [0], [], false⟩ rfl rfl
  exact CollectReach.step (CollectReach.step h0 h1) h2

/-- Splitting at a separator that does not occur in the first part
isolates that part as the first piece. -/
theorem splitOnChar_append (sep : Char) (A B : List Char) (hA : sep ∉ A) :
    splitOnChar sep (A ++ sep :: B) = A :: splitOnChar sep B := by
  induction A with
  | nil => simp [splitOnChar]
  | cons c cs ih =>
    have hc : c ≠ sep := fun h => hA (h ▸ List.mem_cons_self c cs)
    have hcs : sep ∉ cs := fun h => hA (List.mem_cons_of_mem _ h)
    rw [List.cons_append, splitOnChar, if_neg hc, ih hcs]

/-- Splitting at a newline that does not occur in the first part isolates
that part as the first line. -/
theorem splitLines_append (A B : List Char) (hA : '\n' ∉ A) :
    splitLines (A ++ '\n' :: B) = A :: splitLines B :=
  splitOnChar_append '\n' A B hA

/-- A line whose last character is not CR or LF is left alone by the
trailing trim. -/
theorem trimRightCRLF_eq_self (l : List Char)
    (h : ∀ c, l.reverse.head? = some c → (c = '\r' || c = '\n') = false) :
    trimRightCRLF l = l := by
  rw [trimRightCRLF]
  cases hrev : l.reverse with
  | nil =>
    have : l = [] := by simpa using congrArg List.reverse hrev
    simp [this, List.dropWhile]
  | cons c t =>
    rw [List.dropWhile_cons, h c (by rw [hrev]; rfl)]
    simp only [Bool.false_eq_true, if_false]
    have : (c :: t).reverse = l := by
      rw [← hrev, List.reverse_reverse]
    rw [this]

/-- One non-empty, trim-invariant, newline-free line followed by a newline
contributes itself as the head of `cleanLines`. -/
theorem cleanLines_cons (A B : List Char) (h1 : '\n' ∉ A)
    (h2 : trimRightCRLF A = A) (h3 : A ≠ []) :
    cleanLines (A ++ '\n' :: B) = String.mk A :: cleanLines B := by
  rw [cleanLines, splitLines_append A B h1]
  simp only [List.map_cons, h2, List.filter_cons]
  rw [if_pos (by simpa using h3)]
  rfl

/-- Counterexample to C5 as stated: with neither `script` nor `unbuffer`
available and a failing command, the overlay line list is not empty — it
carries the error message line. -/
theorem overlay_error_lines_cex :
    getCommandOutputLines wEnv "foo" = ["Error running command: foo", "boom"]
    ∧ getCommandOutputLines wEnv "foo" ≠ [] := by
  constructor <;> decide

/-- C5 (amended): the program never fails on a bad overlay command (the
wrapper is a total function), but the overlay list supplied on failure is
empty only when a `script`/`unbuffer` wrapper swallowed the error; in the
direct-execution fallback a failing or missing command yields the
non-empty `Error running command:` line followed by the cleaned lines of
the command's captured output. -/
theorem overlay_error_lines (env : CmdEnv) (commandLine : String)
    (name : String) (rest : List String) (out : String)
    (hs : env.scriptAvailable = false) (hu : env.unbufferAvailable = false)
    (hf : fields commandLine = name :: rest)
    (hr : env.run name rest = (out, true))
    (hn : ∀ c ∈ name.data, c ≠ '\n' ∧ c ≠ '\r') :
    getCommandOutputLines env commandLine =
      ("Error running command: " ++ name) :: cleanLines out.data
    ∧ getCommandOutputLines env commandLine ≠ [] := by
  have hrun : runCommand env commandLine =
      "Error running command: " ++ name ++ "\n" ++ out := by
    rw [runCommand, hf]
    simp [hs, hu, hr]
  have hdata : (("Error running command: " ++ name ++ "\n" ++ out)).data =
      ("Error running command: " ++ name).data ++ '\n' :: out.data := by
    simp [String.data_append]
  have hA1 : '\n' ∉ ("Error running command: " ++ name).data := by
    rw [String.data_append]
    intro hmem
    rcases List.mem_append.mp hmem with hmem | hmem
    · revert hmem; decide
    · exact (hn _ hmem).1 rfl
  have hA2 : trimRightCRLF (("Error running command: " ++ name).data) =
      ("Error running command: " ++ name).data := by
    apply trimRightCRLF_eq_self
    intro c hc
    rw [String.data_append, List.reverse_append] at hc
    rcases hGo : name.data.reverse with _ | ⟨c0, t⟩
    · rw [hGo] at hc
      simp only [List.nil_append] at hc
      have hc' : ("Error running command: ".data.reverse).head? = some ' ' := by
        decide
      rw [hc'] at hc
      obtain rfl : ' ' = c := Option.some.inj hc
      rfl
    · rw [hGo] at hc
      simp only [List.cons_append, List.head?_cons, Option.some.injEq] at hc
      have hc0 : c0 ∈ name.data := by
        have : c0 ∈ name.data.reverse := by rw [hGo]; exact List.mem_cons_self ..
        simpa using this
      rcases hn c0 hc0 with ⟨hn1, hn2⟩
      rw [← hc]
      simp [hn1, hn2]
  have hA3 : ("Error running command: " ++ name).data ≠ [] := by
    rw [String.data_append]
    intro hemp
    have := congrArg List.length hemp
    simp at this
  have hclean : getCommandOutputLines env commandLine =
      String.mk (("Error running command: " ++ name).data) ::
        cleanLines out.data := by
    rw [getCommandOutputLines, hrun, hdata]
    exact cleanLines_cons _ _ hA1 hA2 hA3
  refine ⟨hclean, by rw [hclean]; exact List.cons_ne_nil _ _⟩

/-- Witness for C5 (amended) in the concrete failing environment. -/
theorem overlay_error_lines_witness :
    getCommandOutputLines wEnv "foo" =
      ("Error running command: " ++ "foo") :: cleanLines "boom".data
    ∧ getCommandOutputLines wEnv "foo" ≠ [] :=
  overlay_error_lines wEnv "foo" "foo" [] "boom" rfl rfl (by decide) rfl
    (by decide)

/-- `renderFrame` indexes: line `y` of the output is `renderLine` at `y`. -/
theorem renderFrame_getD (img : Img) (width height : ℕ)
    (sysInfo : List String) (colorOutput : Bool) (multiplier : ℚ)
    (offset : ℤ) (y : ℕ)
    (hy : y < totalHeight height sysInfo.length offset) :
    (renderFrame img width height sysInfo colorOutput multiplier
      offset).getD y "" =
      renderLine img width height sysInfo colorOutput multiplier offset y := by
  rw [renderFrame, List.getD_eq_getElem _ _ (by simpa using hy)]
  simp

/-- C8: the renderer returns exactly `max(height, overlay count + offset)`
lines; a row at index at least `height` is exactly `width` spaces followed
by the overlay part, if any; and a row whose index minus the offset falls
in the overlay's range carries the three-space separator and the matching
overlay line after its image portion. -/
theorem renderFrame_layout (img : Img) (width height : ℕ)
    (sysInfo : List String) (colorOutput : Bool) (multiplier : ℚ)
    (offset : ℤ) :
    (((renderFrame img width height sysInfo colorOutput multiplier
        offset).length : ℤ) =
      max (height : ℤ) ((sysInfo.length : ℤ) + offset))
    ∧ (∀ y, height ≤ y → y < totalHeight height sysInfo.length offset →
        (renderFrame img width height sysInfo colorOutput multiplier
          offset).getD y "" =
          blankRow width ++
            (if 0 ≤ (y : ℤ) - offset ∧ (y : ℤ) - offset < sysInfo.length then
              "   " ++ sysInfo.getD ((y : ℤ) - offset).toNat ""
            else ""))
    ∧ (∀ y, y < totalHeight height sysInfo.length offset →
        0 ≤ (y : ℤ) - offset → (y : ℤ) - offset < sysInfo.length →
        (renderFrame img width height sysInfo colorOutput multiplier
          offset).getD y "" =
          (if y < height then
            imageRow img width height colorOutput multiplier y
          else blankRow width) ++ "   " ++
            sysInfo.getD ((y : ℤ) - offset).toNat "") := by
  refine ⟨?_, ?_, ?_⟩
  · rw [renderFrame, List.length_map, List.length_range, totalHeight]
    split_ifs with hlt
    · rw [Int.toNat_of_nonneg (by omega), max_eq_right (le_of_lt hlt)]
    · rw [max_eq_left (by omega)]
  · intro y h1 h2
    rw [renderFrame_getD img width height sysInfo colorOutput multiplier
      offset y h2]
    rw [renderLine]
    simp only [not_lt.mpr h1, if_false]
    split_ifs with h3
    · rw [String.append_assoc]
    · rw [String.append_empty]
  · intro y h1 h2 h3
    rw [renderFrame_getD img width height sysInfo colorOutput multiplier
      offset y h1]
    rw [renderLine]
    simp only [if_pos (And.intro h2 h3)]

/-- Witness for C8 on a 1×1 canvas with a two-line overlay. -/
theorem renderFrame_layout_witness :
    ((renderFrame wImg 1 1 ["a", "b"] false 1 0).getD 1 "" =
      blankRow 1 ++
        (if 0 ≤ (1 : ℤ) - 0 ∧ (1 : ℤ) - 0 < (["a", "b"] : List String).length
         then "   " ++ (["a", "b"] : List String).getD ((1 : ℤ) - 0).toNat ""
         else ""))
    ∧ ((renderFrame wImg 1 1 ["a", "b"] false 1 0).getD 0 "" =
        (if 0 < 1 then imageRow wImg 1 1 false 1 0 else blankRow 1) ++
          "   " ++ (["a", "b"] : List String).getD ((0 : ℤ) - 0).toNat "") :=
  ⟨(renderFrame_layout wImg 1 1 ["a", "b"] false 1 0).2.1 1 (by decide)
      (by decide),
   (renderFrame_layout wImg 1 1 ["a", "b"] false 1 0).2.2 0 (by decide)
      (by decide) (by decide)⟩

/-! Unfolding equations for the compositor trace. -/

theorem preCanvas_eq (cb : Rect) (frames : List GFrame) (i : ℕ) :
    preCanvas cb frames i = applyDisposal cb (stateAt cb frames i) := rfl

theorem lastDisposal_stateAt_succ (cb : Rect) (frames : List GFrame)
    (i : ℕ) :
    (stateAt cb frames (i + 1)).lastDisposal =
      (frames.getD i default).disposal := rfl

theorem lastBounds_stateAt_succ (cb : Rect) (frames : List GFrame) (i : ℕ) :
    (stateAt cb frames (i + 1)).lastBounds =
      (frames.getD i default).bounds := rfl

theorem fullFrame_stateAt_succ (cb : Rect) (frames : List GFrame) (i : ℕ) :
    (stateAt cb frames (i + 1)).fullFrame =
      drawFrame cb (preCanvas cb frames i) (frames.getD i default) := rfl

theorem snapshot_stateAt_succ (cb : Rect) (frames : List GFrame) (i : ℕ) :
    (stateAt cb frames (i + 1)).snapshot =
      if (frames.getD i default).disposal = DisposalPrevious then
        fun p => if cb.Mem p then preCanvas cb frames i p
                 else (stateAt cb frames i).snapshot p
      else (stateAt cb frames i).snapshot := rfl

/-- `RestorePrevious` disposal copies the snapshot over the canvas. -/
theorem applyDisposal_previous (cb : Rect) (st : CompState)
    (hd : st.lastDisposal = DisposalPrevious) (p : ℤ × ℤ)
    (hp : cb.Mem p) :
    applyDisposal cb st p = st.snapshot p := by
  rw [applyDisposal, if_pos hd]
  simp [hp]

/-- Any disposal other than `None` and `Previous` clears the previous
frame's rectangle. -/
theorem applyDisposal_other (cb : Rect) (st : CompState)
    (hd1 : st.lastDisposal ≠ DisposalPrevious)
    (hd2 : st.lastDisposal ≠ DisposalNone) (p : ℤ × ℤ) :
    applyDisposal cb st p =
      if cb.Mem p ∧ st.lastBounds.Mem p then transparent
      else st.fullFrame p := by
  rw [applyDisposal, if_neg hd1, if_pos hd2]

/-- `None` disposal leaves the canvas untouched. -/
theorem applyDisposal_none (cb : Rect) (st : CompState)
    (hd : st.lastDisposal = DisposalNone) :
    applyDisposal cb st = st.fullFrame := by
  rw [applyDisposal, if_neg (by rw [hd]; decide),
    if_neg (fun hne => hne hd)]

/-- C1: before frame `i+1` is composited, the disposal recorded for frame
`i` is applied to the composed canvas — `RestorePrevious` copies the
snapshot back over every canvas pixel, any other non-`None` byte turns
exactly the pixels of frame `i`'s rectangle fully transparent and leaves
the rest, and `None` leaves the canvas exactly as frame `i` left it. -/
theorem compositor_applies_previous_disposal (W H : ℤ)
    (frames : List GFrame) (i : ℕ) (h : i + 1 < frames.length)
    (p : ℤ × ℤ) (hp : (canvasRect W H).Mem p) :
    ((frames.getD i default).disposal = DisposalPrevious →
      preCanvas (canvasRect W H) frames (i + 1) p =
        (stateAt (canvasRect W H) frames (i + 1)).snapshot p)
    ∧ ((frames.getD i default).disposal ≠ DisposalNone →
        (frames.getD i default).disposal ≠ DisposalPrevious →
        preCanvas (canvasRect W H) frames (i + 1) p =
          (if (frames.getD i default).bounds.Mem p then transparent
           else postCanvas (canvasRect W H) frames i p))
    ∧ ((frames.getD i default).disposal = DisposalNone →
        preCanvas (canvasRect W H) frames (i + 1) p =
          postCanvas (canvasRect W H) frames i p) := by
  refine ⟨?_, ?_, ?_⟩
  · intro hd
    rw [preCanvas_eq,
      applyDisposal_previous _ _
        (by rw [lastDisposal_stateAt_succ]; exact hd) p hp]
  · intro hd1 hd2
    rw [preCanvas_eq,
      applyDisposal_other _ _
        (by rw [lastDisposal_stateAt_succ]; exact hd2)
        (by rw [lastDisposal_stateAt_succ]; exact hd1) p,
      lastBounds_stateAt_succ,
      if_congr (and_iff_right hp) rfl rfl]
    rfl
  · intro hd
    rw [preCanvas_eq,
      applyDisposal_none _ _
        (by rw [lastDisposal_stateAt_succ]; exact hd)]
    rfl

/-- Witness for C1 on the concrete two-frame animation. -/
theorem compositor_applies_previous_disposal_witness :
    ((wFrames.getD 0 default).disposal = DisposalPrevious →
      preCanvas (canvasRect 2 2) wFrames 1 (0, 0) =
        (stateAt (canvasRect 2 2) wFrames 1).snapshot (0, 0))
    ∧ ((wFrames.getD 0 default).disposal ≠ DisposalNone →
        (wFrames.getD 0 default).disposal ≠ DisposalPrevious →
        preCanvas (canvasRect 2 2) wFrames 1 (0, 0) =
          (if (wFrames.getD 0 default).bounds.Mem (0, 0) then transparent
           else postCanvas (canvasRect 2 2) wFrames 0 (0, 0)))
    ∧ ((wFrames.getD 0 default).disposal = DisposalNone →
        preCanvas (canvasRect 2 2) wFrames 1 (0, 0) =
          postCanvas (canvasRect 2 2) wFrames 0 (0, 0)) :=
  compositor_applies_previous_disposal 2 2 wFrames 0 (by decide) (0, 0)
    (by decide)

/-- C3: for a frame `i` tagged `RestorePrevious`, the compositor's snapshot
equals the canvas immediately before frame `i` is composited, and after
the subsequent frame `i+1` is composited every canvas pixel outside frame
`i+1`'s own bounds is identical to that pre-`i` state. -/
theorem restorePrevious_roundTrip (W H : ℤ) (frames : List GFrame) (i : ℕ)
    (h : i + 1 < frames.length)
    (hd : (frames.getD i default).disposal = DisposalPrevious) :
    (∀ p, (canvasRect W H).Mem p →
      (stateAt (canvasRect W H) frames (i + 1)).snapshot p =
        preCanvas (canvasRect W H) frames i p)
    ∧ (∀ p, (canvasRect W H).Mem p →
        ¬ (frames.getD (i + 1) default).bounds.Mem p →
        postCanvas (canvasRect W H) frames (i + 1) p =
          preCanvas (canvasRect W H) frames i p) := by
  have hsnap : ∀ p, (canvasRect W H).Mem p →
      (stateAt (canvasRect W H) frames (i + 1)).snapshot p =
        preCanvas (canvasRect W H) frames i p := by
    intro p hp
    rw [snapshot_stateAt_succ, if_pos hd]
    simp [hp]
  refine ⟨hsnap, ?_⟩
  intro p hp hnb
  rw [postCanvas, fullFrame_stateAt_succ, drawFrame]
  simp only [hnb, and_false, if_false]
  rw [preCanvas_eq,
    applyDisposal_previous _ _
      (by rw [lastDisposal_stateAt_succ]; exact hd) p hp]
  exact hsnap p hp

/-- Witness for C3 on the concrete two-frame animation. -/
theorem restorePrevious_roundTrip_witness :
    (∀ p, (canvasRect 2 2).Mem p →
      (stateAt (canvasRect 2 2) wFrames 1).snapshot p =
        preCanvas (canvasRect 2 2) wFrames 0 p)
    ∧ (∀ p, (canvasRect 2 2).Mem p →
        ¬ (wFrames.getD 1 default).bounds.Mem p →
        postCanvas (canvasRect 2 2) wFrames 1 p =
          preCanvas (canvasRect 2 2) wFrames 0 p) :=
  restorePrevious_roundTrip 2 2 wFrames 0 (by decide) (by decide)

end Brrtfetch
